import Mathlib

/-!
# Verification of the flight-radar map demo (MAanyaDB)

Shallow embedding of the core computations of `src/demo.py` and
`src/utils.py`: the geometry corridor filter, the frame clock, the
motion-model point selection, the flight-point builder and the pulse
model.  Real-valued quantities are modelled over `ℚ` (exact arithmetic,
the idealised semantics of the Python float expressions); Python's
`int(...)` truncation and float `%` are modelled explicitly.
-/

namespace FlightRadar

/- ## Python numeric primitives -/

/-- Semantics of Python `int(x)` on a real value: truncation toward zero. -/
def pyInt (x : ℚ) : ℤ := if 0 ≤ x then ⌊x⌋ else ⌈x⌉

/-- Semantics of Python `x % m` on real values (sign follows the divisor):
`x - m * ⌊x / m⌋`. -/
def pyMod (x m : ℚ) : ℚ := x - m * ⌊x / m⌋

theorem pyMod_nonneg (x m : ℚ) (hm : 0 < m) : 0 ≤ pyMod x m := by
  have h := Int.sub_floor_div_mul_nonneg x hm
  unfold pyMod
  linarith [h]

theorem pyMod_lt (x m : ℚ) (hm : 0 < m) : pyMod x m < m := by
  have h := Int.sub_floor_div_mul_lt x hm
  unfold pyMod
  linarith [h]

theorem pyMod_add_right (x m : ℚ) (hm : 0 < m) : pyMod (x + m) m = pyMod x m := by
  unfold pyMod
  have hm0 : m ≠ 0 := ne_of_gt hm
  have hdiv : (x + m) / m = x / m + 1 := by field_simp
  rw [hdiv, Int.floor_add_one]
  push_cast
  ring

/-- Floor of a real divided by a positive natural agrees with integer
(Euclidean) division of the floor. -/
theorem floor_div_natCast (x : ℚ) (n : ℕ) (hn : 0 < n) :
    ⌊x / (n : ℚ)⌋ = ⌊x⌋ / (n : ℤ) := by
  have hn' : (0 : ℚ) < (n : ℚ) := by exact_mod_cast hn
  have hnz : (0 : ℤ) < (n : ℤ) := by exact_mod_cast hn
  set q : ℤ := ⌊x⌋ / (n : ℤ) with hq
  set r : ℤ := ⌊x⌋ % (n : ℤ) with hr
  have hqr : (n : ℤ) * q + r = ⌊x⌋ := Int.ediv_add_emod _ _
  have hr0 : 0 ≤ r := Int.emod_nonneg _ (ne_of_gt hnz)
  have hrn : r < (n : ℤ) := Int.emod_lt_of_pos _ hnz
  have hflo : (⌊x⌋ : ℚ) ≤ x := Int.floor_le x
  have hfhi : x < (⌊x⌋ : ℚ) + 1 := Int.lt_floor_add_one x
  have hqrQ : (n : ℚ) * (q : ℚ) + (r : ℚ) = (⌊x⌋ : ℚ) := by exact_mod_cast hqr
  have hr0Q : (0 : ℚ) ≤ (r : ℚ) := by exact_mod_cast hr0
  have hrnQ : (r : ℚ) < (n : ℚ) := by exact_mod_cast hrn
  have hrn1 : r + 1 ≤ (n : ℤ) := hrn
  have hrn1Q : (r : ℚ) + 1 ≤ (n : ℚ) := by exact_mod_cast hrn1
  rw [Int.floor_eq_iff]
  constructor
  · rw [le_div_iff₀ hn']
    nlinarith
  · rw [div_lt_iff₀ hn']
    nlinarith

/-- Floor of the Python float modulus against a positive natural modulus is
integer Euclidean `%` of the floor. -/
theorem floor_pyMod (x : ℚ) (n : ℕ) (hn : 0 < n) :
    ⌊pyMod x (n : ℚ)⌋ = ⌊x⌋ % (n : ℤ) := by
  unfold pyMod
  have hcast : (n : ℚ) * (⌊x / (n : ℚ)⌋ : ℚ) = (((n : ℤ) * ⌊x / (n : ℚ)⌋ : ℤ) : ℚ) := by
    push_cast; ring
  rw [hcast, Int.floor_sub_int, floor_div_natCast x n hn, Int.emod_def]

/- ## Constants of `src/demo.py` -/

/-- Source `demo.py` line 23: `N_POINTS = 100`. -/
def N_POINTS : ℕ := 100

/-- Source `demo.py` line 24: `CYCLE_DURATION_MS = 3000`. -/
def CYCLE_DURATION_MS : ℚ := 3000

/-- Source `demo.py` line 27: `PLANE_SPEED_FACTOR = 2`. -/
def PLANE_SPEED_FACTOR : ℚ := 2

/- ## Frame clock -/

/-- Source `demo.py` line 82 (inside `get_plane_layers`):
`frame = int(now * PLANE_SPEED_FACTOR % N_POINTS)` where `now = time.time()`
is wall-clock seconds.  Python `*` and `%` associate left at equal
precedence, so this is `int((now * 2) % 100)`. -/
def route_frame_index (now : ℚ) : ℤ :=
  pyInt (pyMod (now * PLANE_SPEED_FACTOR) (N_POINTS : ℚ))

/-- Source `demo.py` lines 139-140:
`t = (time.time() * 1000) % CYCLE_DURATION_MS; scale = t / CYCLE_DURATION_MS`,
with the cycle duration kept as a parameter. -/
def animation_scale (now_ms cycle : ℚ) : ℚ := pyMod now_ms cycle / cycle

/-- C5: for every nonnegative wall-clock time `now` (seconds), with speed
factor 2 and resolution 100, the route progress index computed by the frame
clock equals `⌊now * 2⌋ % 100` and is an integer in `[0, 100)`. -/
theorem C5_route_frame_index (now : ℚ) (h : 0 ≤ now) :
    route_frame_index now = ⌊now * 2⌋ % 100 ∧
    0 ≤ route_frame_index now ∧ route_frame_index now < 100 := by
  have h100 : (0 : ℚ) < ((100 : ℕ) : ℚ) := by norm_num
  have hnn : 0 ≤ pyMod (now * 2) ((100 : ℕ) : ℚ) := pyMod_nonneg _ _ h100
  have hfi : route_frame_index now = ⌊pyMod (now * 2) ((100 : ℕ) : ℚ)⌋ := by
    unfold route_frame_index pyInt PLANE_SPEED_FACTOR N_POINTS
    rw [if_pos]
    exact_mod_cast hnn
  have hfloor : ⌊pyMod (now * 2) ((100 : ℕ) : ℚ)⌋ = ⌊now * 2⌋ % ((100 : ℕ) : ℤ) :=
    floor_pyMod (now * 2) 100 (by norm_num)
  refine ⟨by rw [hfi, hfloor]; norm_num, ?_, ?_⟩
  · rw [hfi, hfloor]
    exact Int.emod_nonneg _ (by norm_num)
  · rw [hfi, hfloor]
    exact Int.emod_lt_of_pos _ (by norm_num)

theorem C5_route_frame_index_witness : route_frame_index (51 / 2) = 51 := by
  have h := (C5_route_frame_index (51 / 2) (by norm_num)).1
  rw [h]
  norm_num

/-- C6: for every nonnegative wall-clock time in milliseconds, the animation
phase `(now_ms mod cycle)/cycle` with the default cycle of 3000 ms lies in
`[0, 1)`, is periodic with period 3000 ms, and is 0 at 0 ms and at 3000 ms. -/
theorem C6_animation_scale (now_ms : ℚ) (h : 0 ≤ now_ms) :
    CYCLE_DURATION_MS = 3000 ∧
    0 ≤ animation_scale now_ms CYCLE_DURATION_MS ∧
    animation_scale now_ms CYCLE_DURATION_MS < 1 ∧
    animation_scale (now_ms + CYCLE_DURATION_MS) CYCLE_DURATION_MS
      = animation_scale now_ms CYCLE_DURATION_MS ∧
    animation_scale 0 CYCLE_DURATION_MS = 0 ∧
    animation_scale CYCLE_DURATION_MS CYCLE_DURATION_MS = 0 := by
  have hc : (0 : ℚ) < CYCLE_DURATION_MS := by norm_num [CYCLE_DURATION_MS]
  refine ⟨rfl, ?_, ?_, ?_, ?_, ?_⟩
  · exact div_nonneg (pyMod_nonneg _ _ hc) (le_of_lt hc)
  · exact (div_lt_one hc).mpr (pyMod_lt _ _ hc)
  · unfold animation_scale
    rw [pyMod_add_right _ _ hc]
  · unfold animation_scale pyMod CYCLE_DURATION_MS
    norm_num
  · unfold animation_scale pyMod CYCLE_DURATION_MS
    norm_num

theorem C6_animation_scale_witness :
    0 ≤ animation_scale 4500 CYCLE_DURATION_MS ∧
    animation_scale 4500 CYCLE_DURATION_MS < 1 := by
  have h := C6_animation_scale 4500 (by norm_num)
  exact ⟨h.2.1, h.2.2.1⟩

/- ## Geometry corridor filter (`src/utils.py` lines 48-88)

Shapely geometries are modelled by their point sets, discretised to finite
lists of rational points, together with the planar-validity attribute that
`shapely` computes for a parsed geometry.  `unary_union` is set union,
`intersects` is nonempty intersection of point sets, so the model preserves
exactly the algebraic facts the filter relies on. -/

/-- A geographic point `(lon, lat)`. -/
abbrev Pt := ℚ × ℚ

/-- A parsed geometry: its (discretised) point set and its planar-validity
attribute (`shapely`'s `is_valid`). -/
structure Geom where
  pts : List Pt
  valid : Bool
deriving DecidableEq

/-- The raw `"geometry"` member of a GeoJSON feature: either a value
`shape(...)` fails to parse (raises), or one it parses to a `Geom`. -/
inductive GeomJson where
  | bad : GeomJson
  | ok : Geom → GeomJson
deriving DecidableEq

/-- A GeoJSON feature: an optional geometry member plus opaque properties
(modelled by a natural-number payload, which also gives features an
identity). -/
structure Feature where
  geometry : Option GeomJson
  props : ℕ
deriving DecidableEq

/-- Function `shapely.geometry.shape`, as used on line 73 of `utils.py`: returns the
parsed geometry or fails (`Exception` caught by the caller). -/
def shape : GeomJson → Option Geom
  | GeomJson.bad => none
  | GeomJson.ok g => some g

/-- A corridor region (a buffered route path), as a point set. -/
abbrev Region := List Pt

/-- Function `shapely.ops.unary_union` on the buffer list (line 66 of `utils.py`):
the union of the regions' point sets. -/
def unary_union (buffers : List Region) : Region :=
  buffers.foldl (fun acc b => acc ++ b) []

/-- Test `geom.intersects(region)`: the two point sets share a point. -/
def intersects (g : Geom) (r : Region) : Bool :=
  g.pts.any (fun p => decide (p ∈ r))

/-- The per-feature test of the loop body of `hazards_intersecting_route`
(`utils.py` lines 68-77): skip a missing geometry, skip a parse failure,
otherwise keep the feature iff it is valid and intersects the buffer
union. -/
def hazard_hit (union_buf : Region) (feat : Feature) : Bool :=
  match feat.geometry with
  | none => false
  | some gj =>
    match shape gj with
    | none => false
    | some geom => geom.valid && intersects geom union_buf

/-- Function `hazards_intersecting_route` (`utils.py` lines 62-78).  The GeoJSON
argument is `none` when falsy or lacking a `"features"` member (the early
`return []`), else `some` of its feature list. -/
def hazards_intersecting_route (sigmet_geojson : Option (List Feature))
    (buffers : List Region) : List Feature :=
  match sigmet_geojson with
  | none => []
  | some feats => feats.filter (hazard_hit (unary_union buffers))

/-- Specification-side test, written as the spec words it: the feature's
geometry is present, parseable and valid, and intersects at least one
corridor. -/
def feature_relevant (buffers : List Region) (feat : Feature) : Prop :=
  ∃ gj, feat.geometry = some gj ∧
    ∃ g, shape gj = some g ∧ g.valid = true ∧ ∃ b ∈ buffers, intersects g b = true

theorem unary_union_eq_flatten (buffers : List Region) :
    unary_union buffers = buffers.flatten := by
  unfold unary_union
  suffices h : ∀ acc : Region, buffers.foldl (fun a b => a ++ b) acc = acc ++ buffers.flatten by
    simpa using h []
  induction buffers with
  | nil => intro acc; simp
  | cons b bs ih => intro acc; simp [ih, List.append_assoc]

/-- Intersecting the union of the buffers is intersecting at least one
buffer. -/
theorem intersects_unary_union_iff (g : Geom) (buffers : List Region) :
    intersects g (unary_union buffers) = true ↔ ∃ b ∈ buffers, intersects g b = true := by
  rw [unary_union_eq_flatten]
  unfold intersects
  simp only [List.any_eq_true, decide_eq_true_iff, List.mem_flatten]
  tauto

/-- C1: on any feature collection and any corridor list, the filter returns
exactly the features whose geometry is present, parseable, valid and
intersecting at least one corridor; it is an order-preserving sublist of the
input, missing/unparseable/invalid geometries are dropped without error, and
the empty/malformed-collection case returns `[]`.  (Purity and
non-mutation hold by construction: the embedding is a function of its
arguments.) -/
theorem C1_corridor_filter (feats : List Feature) (buffers : List Region) :
    (∀ f : Feature,
        hazard_hit (unary_union buffers) f = true ↔ feature_relevant buffers f) ∧
    hazards_intersecting_route (some feats) buffers
      = feats.filter (hazard_hit (unary_union buffers)) ∧
    (hazards_intersecting_route (some feats) buffers).Sublist feats ∧
    hazards_intersecting_route none buffers = [] := by
  refine ⟨?_, rfl, List.filter_sublist feats, rfl⟩
  intro f
  cases hg : f.geometry with
  | none => simp [hazard_hit, feature_relevant, hg]
  | some gj =>
    cases hs : shape gj with
    | none => simp [hazard_hit, feature_relevant, hg, hs]
    | some g =>
      simp only [hazard_hit, feature_relevant, hg, hs, Bool.and_eq_true,
        intersects_unary_union_iff, Option.some.injEq]
      constructor
      · rintro ⟨hv, b, hb, hgb⟩
        exact ⟨gj, rfl, g, hs, hv, b, hb, hgb⟩
      · rintro ⟨gj2, hgj2, g2, hshape2, hv2, b, hb, hgb⟩
        rw [← hgj2] at hshape2
        rw [hs] at hshape2
        injection hshape2 with hshape2
        subst hshape2
        exact ⟨hv2, b, hb, hgb⟩

/- ## Motion model (`src/demo.py` lines 48-54 and 78-93) -/

/-- A configured route: origin (`"from"`) and destination (`"to"`), each a
`(lon, lat)` pair in decimal degrees. -/
structure Route where
  origin : Pt
  dest : Pt

/-- Function `numpy.linspace(a, b, n)`: `n` evenly spaced samples from `a` to `b`,
endpoints included (`a` alone when `n = 1`). -/
def linspace (a b : ℚ) (n : ℕ) : List ℚ :=
  if n = 1 then [a]
  else (List.range n).map (fun i : ℕ => a + (b - a) * (i : ℚ) / ((n : ℚ) - 1))

/-- The per-route body of `precompute_route_points` (`demo.py` lines 50-53):
`np.linspace` over longitudes zipped with `np.linspace` over latitudes. -/
def route_points (r : Route) (n : ℕ) : List Pt :=
  List.zip (linspace r.origin.1 r.dest.1 n) (linspace r.origin.2 r.dest.2 n)

/-- Function `precompute_route_points` (`demo.py` lines 48-54) at the configured
resolution `N_POINTS = 100`. -/
def precompute_route_points (routes : List Route) : List (List Pt) :=
  routes.map (fun r => route_points r N_POINTS)

theorem linspace_length (a b : ℚ) (n : ℕ) : (linspace a b n).length = n := by
  unfold linspace
  by_cases h : n = 1
  · simp [h]
  · simp [h]

theorem route_points_length (r : Route) (n : ℕ) : (route_points r n).length = n := by
  unfold route_points
  rw [List.length_zip, linspace_length, linspace_length, min_self]

theorem route_points_eq_map (r : Route) (n : ℕ) (hn : n ≠ 1) :
    route_points r n = (List.range n).map
      (fun i : ℕ => (r.origin.1 + (r.dest.1 - r.origin.1) * (i : ℚ) / ((n : ℚ) - 1),
                     r.origin.2 + (r.dest.2 - r.origin.2) * (i : ℚ) / ((n : ℚ) - 1))) := by
  unfold route_points linspace
  rw [if_neg hn, if_neg hn, List.zip_map']

/-- C7: the precomputed path has exactly `n` points (with the configured
`n = N_POINTS = 100` per route); point 0 is exactly the origin and point
`n-1` exactly the destination; consecutive points differ by the constant
step `(dest - origin)/(n-1)` in each coordinate (even spacing); and the
route `(77.1, 28.6) → (72.87, 19.07)` at `n = 5` yields exactly the five
points of the specified scenario. -/
theorem C7_route_points (r : Route) (n : ℕ) (hn : 2 ≤ n) :
    (route_points r n).length = n ∧
    (precompute_route_points [r]) = [route_points r 100] ∧
    (route_points r n)[0]? = some r.origin ∧
    (route_points r n)[n - 1]? = some r.dest ∧
    (∀ i p q, (route_points r n)[i]? = some p → (route_points r n)[i + 1]? = some q →
        q.1 - p.1 = (r.dest.1 - r.origin.1) / ((n : ℚ) - 1) ∧
        q.2 - p.2 = (r.dest.2 - r.origin.2) / ((n : ℚ) - 1)) ∧
    route_points ⟨(77.1, 28.6), (72.87, 19.07)⟩ 5 =
      [(77.1, 28.6), (76.0425, 26.2175), (74.985, 23.835),
       (73.9275, 21.4525), (72.87, 19.07)] := by
  have hn1 : n ≠ 1 := by omega
  have hne : ((n : ℚ) - 1) ≠ 0 := by
    have : (2 : ℚ) ≤ (n : ℚ) := by exact_mod_cast hn
    intro hc
    rw [sub_eq_zero] at hc
    rw [hc] at this
    norm_num at this
  have hmap := route_points_eq_map r n hn1
  refine ⟨route_points_length r n, by simp [precompute_route_points, N_POINTS], ?_, ?_, ?_, ?_⟩
  · rw [hmap, List.getElem?_map, List.getElem?_range (by omega : 0 < n)]
    simp
  · rw [hmap, List.getElem?_map, List.getElem?_range (by omega : n - 1 < n)]
    have hcast : ((n - 1 : ℕ) : ℚ) = (n : ℚ) - 1 := by
      have : (1 : ℕ) ≤ n := by omega
      push_cast [this]
      ring
    simp only [Option.map_some']
    rw [hcast]
    have h1 : r.origin.1 + (r.dest.1 - r.origin.1) * ((n : ℚ) - 1) / ((n : ℚ) - 1)
        = r.dest.1 := by field_simp
    have h2 : r.origin.2 + (r.dest.2 - r.origin.2) * ((n : ℚ) - 1) / ((n : ℚ) - 1)
        = r.dest.2 := by field_simp
    rw [h1, h2]
  · intro i p q hp hq
    have hi1 : i + 1 < n := by
      by_contra hcon
      rw [hmap, List.getElem?_map] at hq
      have : (List.range n)[i + 1]? = none := by
        rw [List.getElem?_eq_none]
        · simpa using Nat.le_of_not_lt hcon
      rw [this] at hq
      simp at hq
    have hi : i < n := by omega
    rw [hmap, List.getElem?_map, List.getElem?_range hi] at hp
    rw [hmap, List.getElem?_map, List.getElem?_range hi1] at hq
    simp only [Option.map_some', Option.some.injEq] at hp hq
    rw [← hp, ← hq]
    push_cast
    constructor
    · field_simp
      ring
    · field_simp
      ring
  · rw [route_points_eq_map _ 5 (by norm_num)]
    norm_num [List.range_succ]

theorem C7_route_points_witness :
    (route_points ⟨(77.1, 28.6), (72.87, 19.07)⟩ 5).length = 5 :=
  (C7_route_points ⟨(77.1, 28.6), (72.87, 19.07)⟩ 5 (by norm_num)).1

/- ## Plane-position selection (`src/demo.py` lines 78-93) -/

/-- Semantics of a Python / pandas positional slice `xs[a:b]`
(`DataFrame.iloc[a:b]` follows list-slice semantics: out-of-range bounds
are clamped, never an error). -/
def iloc_slice (xs : List α) (a b : ℕ) : List α :=
  (xs.drop a).take (b - a)

/-- Source `demo.py` line 83 (inside `get_plane_layers`):
`plane_pos = points.iloc[frame:frame+1]` — the selection of the current
plane position from the precomputed route points. -/
def plane_position_selection (points : List Pt) (frame : ℕ) : List Pt :=
  iloc_slice points frame (frame + 1)

/-- C2 (code evaluation at the failing input): for any out-of-range
`frame`, the plane-position selection silently returns the empty selection
— no error is raised and no in-range point is produced, contradicting the
required loud failure. -/
theorem C2_out_of_range_silent (points : List Pt) (frame : ℕ)
    (h : points.length ≤ frame) :
    plane_position_selection points frame = [] := by
  unfold plane_position_selection iloc_slice
  rw [List.drop_eq_nil_of_le h]
  simp

theorem C2_out_of_range_silent_witness :
    plane_position_selection
      (route_points ⟨(77.1, 28.6), (72.87, 19.07)⟩ N_POINTS) 100 = [] :=
  C2_out_of_range_silent _ 100 (by rw [route_points_length]; norm_num [N_POINTS])

/- ## Pulse model -/

/-- Source `utils.py` line 152 (inside `sigmet_pulse_layers`):
`max_radius = 250000.0  # 250 km generic pulse`. -/
def generic_max_radius : ℚ := 250000

/-- Source `utils.py` line 153: `radius = max_radius * (0.2 + 0.8 * scale)`. -/
def sigmet_pulse_radius (scale : ℚ) : ℚ :=
  generic_max_radius * (0.2 + 0.8 * scale)

/-- Source `utils.py` lines 154-155:
`opacity = int(160 * (1.0 - scale)); opacity = max(0, min(255, opacity))`. -/
def sigmet_pulse_opacity (scale : ℚ) : ℤ :=
  max 0 (min 255 (pyInt (160 * (1 - scale))))

/-- Modelled from the spec: the severity-tiered pulse variant for fixed
"anomaly" markers (§4.4: severity 1→150 km, 2→250 km, 3→400 km,
unknown/default→250 km, in metres) is part of the 455-line source but its
file is not among those under `src/`; only the generic variant
(`sigmet_pulse_layers`) is.  Table followed verbatim from the spec. -/
def severity_max_radius (severity : ℤ) : ℚ :=
  if severity = 1 then 150000
  else if severity = 2 then 250000
  else if severity = 3 then 400000
  else 250000

/-- Modelled from the spec: the two pulse policies "must be supported as
distinct, named pulse styles, selectable by caller" (§4.4); the
severity-tiered style's implementation file is not under `src/`. -/
inductive PulseStyle where
  | severityTiered : ℤ → PulseStyle
  | generic : PulseStyle
deriving DecidableEq

/-- Maximum pulse radius of a selected pulse style: the severity table for
the tiered style (modelled from the spec), the fixed generic constant of
`sigmet_pulse_layers` for the generic style. -/
def pulse_max_radius : PulseStyle → ℚ
  | PulseStyle.severityTiered severity => severity_max_radius severity
  | PulseStyle.generic => generic_max_radius

/-- Modelled from the spec: default `ring_count` of the ring-based pulse
operation (§4.4: "produce `ring_count` (default 3) concentric rings"). -/
def RING_COUNT : ℕ := 3

/-- Modelled from the spec: ring `i` radius `max_radius * (scale + i * 0.2)`,
wrapped by subtracting `max_radius` once when it exceeds `max_radius`
(§4.4); the implementing file is not under `src/`. -/
def pulse_ring_radius (max_radius scale : ℚ) (i : ℕ) : ℚ :=
  let r := max_radius * (scale + (i : ℚ) * 0.2)
  if max_radius < r then r - max_radius else r

/-- Modelled from the spec: the ring-based pulse operation, producing
`ring_count` concentric ring radii (§4.4). -/
def pulse_rings (max_radius scale : ℚ) (ring_count : ℕ) : List ℚ :=
  (List.range ring_count).map (pulse_ring_radius max_radius scale)

/-- C3: at any phase `scale ∈ [0,1)` and positive `max_radius`, the pulse
operation yields `RING_COUNT = 3` rings; ring 0's radius at scale 0 is 0;
within a cycle ring 0's radius is exactly `max_radius * scale` (the wrap
never fires for ring 0 inside a cycle, so the only discontinuity — the
reset to 0 — is at the cycle boundary, once per cycle), hence strictly
increasing in `scale`; and every ring stays within `max_radius` after the
single-subtraction wrap. -/
theorem C3_pulse_rings (m s : ℚ) (hm : 0 < m) (h0 : 0 ≤ s) (h1 : s < 1) :
    (pulse_rings m s RING_COUNT).length = 3 ∧
    pulse_ring_radius m 0 0 = 0 ∧
    pulse_ring_radius m s 0 = m * s ∧
    (∀ s2, s < s2 → s2 < 1 → pulse_ring_radius m s 0 < pulse_ring_radius m s2 0) ∧
    (∀ i, i < RING_COUNT → pulse_ring_radius m s i ≤ m) := by
  have hring0 : ∀ t : ℚ, 0 ≤ t → t < 1 → pulse_ring_radius m t 0 = m * t := by
    intro t ht0 ht1
    unfold pulse_ring_radius
    have hr : m * (t + (0 : ℕ) * 0.2) = m * t := by push_cast; ring
    rw [hr, if_neg]
    intro hc
    nlinarith
  refine ⟨?_, ?_, hring0 s h0 h1, ?_, ?_⟩
  · unfold pulse_rings RING_COUNT
    simp
  · exact (hring0 0 le_rfl (by norm_num)).trans (mul_zero m)
  · intro s2 hs2 hs21
    rw [hring0 s h0 h1, hring0 s2 (le_trans h0 (le_of_lt hs2)) hs21]
    exact (mul_lt_mul_left hm).mpr hs2
  · intro i hi
    unfold RING_COUNT at hi
    unfold pulse_ring_radius
    interval_cases i
    · rw [if_neg]
      · push_cast; nlinarith
      · push_cast; intro hc; nlinarith
    · by_cases hc : m < m * (s + (1 : ℕ) * 0.2)
      · rw [if_pos hc]; push_cast at hc ⊢; nlinarith
      · rw [if_neg hc]; push_cast at hc ⊢; nlinarith
    · by_cases hc : m < m * (s + (2 : ℕ) * 0.2)
      · rw [if_pos hc]; push_cast at hc ⊢; nlinarith
      · rw [if_neg hc]; push_cast at hc ⊢; nlinarith

theorem C3_pulse_rings_witness : pulse_ring_radius 400000 (1 / 2) 0 = 200000 := by
  have h := (C3_pulse_rings 400000 (1 / 2) (by norm_num) (by norm_num) (by norm_num)).2.2.1
  rw [h]
  norm_num

/-- C4: the two pulse styles are distinct values selectable by the caller;
the severity-tiered style's maximum radius follows the severity table
(1→150 km, 2→250 km, 3→400 km, any other severity→250 km), the generic
style's is the fixed 250 km of `sigmet_pulse_layers`, and the two styles
genuinely differ (e.g. at severity 3). -/
theorem C4_pulse_styles :
    pulse_max_radius (PulseStyle.severityTiered 1) = 150000 ∧
    pulse_max_radius (PulseStyle.severityTiered 2) = 250000 ∧
    pulse_max_radius (PulseStyle.severityTiered 3) = 400000 ∧
    (∀ severity : ℤ, severity ≠ 1 → severity ≠ 2 → severity ≠ 3 →
      pulse_max_radius (PulseStyle.severityTiered severity) = 250000) ∧
    pulse_max_radius PulseStyle.generic = 250000 ∧
    (∀ severity : ℤ, PulseStyle.severityTiered severity ≠ PulseStyle.generic) ∧
    pulse_max_radius (PulseStyle.severityTiered 3) ≠ pulse_max_radius PulseStyle.generic := by
  refine ⟨rfl, rfl, rfl, ?_, rfl, ?_, by norm_num [pulse_max_radius, severity_max_radius, generic_max_radius]⟩
  · intro severity h1 h2 h3
    show severity_max_radius severity = 250000
    unfold severity_max_radius
    rw [if_neg h1, if_neg h2, if_neg h3]
  · intro severity
    exact fun hc => PulseStyle.noConfusion hc

theorem C4_pulse_styles_witness :
    pulse_max_radius (PulseStyle.severityTiered 0) = 250000 :=
  C4_pulse_styles.2.2.2.1 0 (by norm_num) (by norm_num) (by norm_num)

/-- C8: at any phase `scale ∈ [0,1)`, the generic pulse uses the fixed
250 km maximum radius (the computed radius never exceeds it), and its
opacity is `int(160 * (1 - scale))` — the 0–255 clamp is the identity on
this range — and is never negative. -/
theorem C8_generic_pulse (s : ℚ) (h0 : 0 ≤ s) (h1 : s < 1) :
    generic_max_radius = 250000 ∧
    sigmet_pulse_radius s ≤ generic_max_radius ∧
    sigmet_pulse_opacity s = pyInt (160 * (1 - s)) ∧
    0 ≤ sigmet_pulse_opacity s := by
  have hx0 : (0 : ℚ) ≤ 160 * (1 - s) := by nlinarith
  have hx160 : 160 * (1 - s) ≤ 160 := by nlinarith
  have hpy : pyInt (160 * (1 - s)) = ⌊160 * (1 - s)⌋ := by
    unfold pyInt
    rw [if_pos hx0]
  have hf0 : (0 : ℤ) ≤ ⌊160 * (1 - s)⌋ := Int.floor_nonneg.mpr hx0
  have hf160 : ⌊160 * (1 - s)⌋ ≤ 160 := by
    have := Int.floor_le_floor hx160
    rw [show ((160 : ℚ)) = ((160 : ℤ) : ℚ) by norm_num, Int.floor_intCast] at this
    exact this
  refine ⟨rfl, ?_, ?_, ?_⟩
  · unfold sigmet_pulse_radius generic_max_radius
    nlinarith
  · unfold sigmet_pulse_opacity
    rw [hpy, min_eq_right (by omega : ⌊160 * (1 - s)⌋ ≤ 255), max_eq_right hf0]
  · unfold sigmet_pulse_opacity
    rw [hpy, min_eq_right (by omega : ⌊160 * (1 - s)⌋ ≤ 255), max_eq_right hf0]
    exact hf0

theorem C8_generic_pulse_witness :
    sigmet_pulse_opacity (1 / 2) = pyInt 80 ∧ 0 ≤ sigmet_pulse_opacity (1 / 2) := by
  have h := C8_generic_pulse (1 / 2) (by norm_num) (by norm_num)
  refine ⟨?_, h.2.2.2⟩
  have h2 := h.2.2.1
  norm_num at h2 ⊢
  exact h2

/-- C10: at any phase `scale ∈ [0,1)`, each generic pulse layer's radius is
`250000 * (0.2 + 0.8 * scale)`, so it lies in `[50000, 250000)` and never
reaches the 250 km maximum, and the layer's opacity is an integer in
`[0, 160]`. -/
theorem C10_generic_pulse_bounds (s : ℚ) (h0 : 0 ≤ s) (h1 : s < 1) :
    sigmet_pulse_radius s = 250000 * (0.2 + 0.8 * s) ∧
    50000 ≤ sigmet_pulse_radius s ∧
    sigmet_pulse_radius s < 250000 ∧
    0 ≤ sigmet_pulse_opacity s ∧
    sigmet_pulse_opacity s ≤ 160 := by
  have hx0 : (0 : ℚ) ≤ 160 * (1 - s) := by nlinarith
  have hx160 : 160 * (1 - s) ≤ 160 := by nlinarith
  have hpy : pyInt (160 * (1 - s)) = ⌊160 * (1 - s)⌋ := by
    unfold pyInt
    rw [if_pos hx0]
  have hf0 : (0 : ℤ) ≤ ⌊160 * (1 - s)⌋ := Int.floor_nonneg.mpr hx0
  have hf160 : ⌊160 * (1 - s)⌋ ≤ 160 := by
    have := Int.floor_le_floor hx160
    rw [show ((160 : ℚ)) = ((160 : ℤ) : ℚ) by norm_num, Int.floor_intCast] at this
    exact this
  have hop : sigmet_pulse_opacity s = ⌊160 * (1 - s)⌋ := by
    unfold sigmet_pulse_opacity
    rw [hpy, min_eq_right (by omega : ⌊160 * (1 - s)⌋ ≤ 255), max_eq_right hf0]
  refine ⟨rfl, ?_, ?_, ?_, ?_⟩
  · unfold sigmet_pulse_radius generic_max_radius
    nlinarith
  · unfold sigmet_pulse_radius generic_max_radius
    nlinarith
  · rw [hop]; exact hf0
  · rw [hop]; exact hf160

theorem C10_generic_pulse_bounds_witness :
    50000 ≤ sigmet_pulse_radius (1 / 4) ∧ sigmet_pulse_radius (1 / 4) < 250000 := by
  have h := C10_generic_pulse_bounds (1 / 4) (by norm_num) (by norm_num)
  exact ⟨h.2.1, h.2.2.1⟩

/- ## Flight-point builder (`src/utils.py` lines 94-122) -/

/-- A position record (`"live"` or `"arrival"` member of a flight record):
optional longitude and latitude fields. -/
structure PositionRec where
  longitude : Option ℚ
  latitude : Option ℚ
deriving DecidableEq

/-- A flight record from the flight feed: optional live and arrival
position members (`f.get("live")`, `f.get("arrival")`). -/
structure Flight where
  live : Option PositionRec
  arrival : Option PositionRec
deriving DecidableEq

/-- The loop body of `flights_to_layer` (`utils.py` lines 100-111): take
live longitude/latitude, fall back to the arrival coordinates if either is
missing (`f.get("live") or {}` makes a missing member behave as an empty
dict), and skip the record if a coordinate is still missing. -/
def flight_point (f : Flight) : Option Pt :=
  let live := f.live.getD ⟨none, none⟩
  let lon0 := live.longitude
  let lat0 := live.latitude
  let lonlat :=
    if lon0.isNone || lat0.isNone then
      let arr := f.arrival.getD ⟨none, none⟩
      (arr.longitude, arr.latitude)
    else (lon0, lat0)
  match lonlat with
  | (some lon, some lat) => some (lon, lat)
  | _ => none

/-- The point list `pts` accumulated by `flights_to_layer` over the flight
collection (the layer built from it is rendering, out of scope). -/
def flights_to_points (flights : List Flight) : List Pt :=
  flights.filterMap flight_point

/-- Specification-side reading: the usable position of a record is its live
pair when both live coordinates are present, otherwise its arrival pair
when both arrival coordinates are present, otherwise nothing. -/
def live_pair (f : Flight) : Option Pt :=
  match f.live with
  | some p =>
    match p.longitude, p.latitude with
    | some lon, some lat => some (lon, lat)
    | _, _ => none
  | none => none

def arrival_pair (f : Flight) : Option Pt :=
  match f.arrival with
  | some p =>
    match p.longitude, p.latitude with
    | some lon, some lat => some (lon, lat)
    | _, _ => none
  | none => none

def usable_position (f : Flight) : Option Pt :=
  match live_pair f with
  | some pt => some pt
  | none => arrival_pair f

theorem flight_point_eq_usable (f : Flight) :
    flight_point f = usable_position f := by
  rcases f with ⟨live, arrival⟩
  cases live with
  | none =>
    cases arrival with
    | none => rfl
    | some a =>
      rcases a with ⟨alon, alat⟩
      cases alon <;> cases alat <;> rfl
  | some l =>
    rcases l with ⟨llon, llat⟩
    cases llon with
    | none =>
      cases arrival with
      | none => cases llat <;> rfl
      | some a =>
        rcases a with ⟨alon, alat⟩
        cases llat <;> cases alon <;> cases alat <;> rfl
    | some lo =>
      cases llat with
      | none =>
        cases arrival with
        | none => rfl
        | some a =>
          rcases a with ⟨alon, alat⟩
          cases alon <;> cases alat <;> rfl
      | some la => rfl

/-- C9: over any flight collection, the point builder yields exactly one
point per record with a usable position — the live pair when both live
coordinates are present, else the arrival pair — in input order, and skips
every record without a usable position; being a total function, it raises
no error on skipped records. -/
theorem C9_flight_points (flights : List Flight) :
    flights_to_points flights = flights.filterMap usable_position ∧
    (flights_to_points flights).length
      = (flights.filter (fun f => (usable_position f).isSome)).length ∧
    (∀ f ∈ flights, usable_position f = none → flight_point f = none) := by
  have hmap : flights_to_points flights = flights.filterMap usable_position := by
    unfold flights_to_points
    exact List.filterMap_congr (fun f _ => flight_point_eq_usable f)
  refine ⟨hmap, ?_, ?_⟩
  · rw [hmap, List.length_filterMap_eq_countP, List.countP_eq_length_filter]
  · intro f _ hnone
    rw [flight_point_eq_usable f, hnone]

end FlightRadar
